import Mathlib

/-!
Verification of the xdb core against its specification.

This file gives a shallow embedding, in Lean 4, of the parts of the xdb
source that the checked claims talk about:

* the SQL value model and value coercion of `XdbQueryRunner`
  (`parseValue`, `coerceValue`, `evaluateCondition`, `evaluateWhere`,
  `executeInsert`, `executeUpdate`, `validatePrimaryKeyConstraint`);
* the cipher module (`crypto.ts`: `deriveKey`, `encrypt`, `decrypt`);
* the atomic file store (`XdbFile.ts`: `write`, `read`);
* the system registry (`systemCore.ts`: `addBackupToCore`);
* the restore pipeline of the system restore route (validation loop,
  restore loop and status computation).

Modelling conventions:

* JavaScript numbers are modelled as rationals (`Rat`), together with a
  separate `nan` constructor for the IEEE NaN value.  All numeric
  literals appearing in the verified statements are exactly
  representable, so the rational model is exact there.
* JavaScript `undefined` (absent object property) is modelled as
  `Option.none`; the SQL `null` value is the constructor `Value.null`.
* `Number(string)` and `parseFloat` are modelled for plain decimal
  literals (optional sign, digits, optional fraction part); the source
  never feeds them exponent or hexadecimal forms on the verified paths.
* External cryptographic primitives (`scryptSync`, AES-256-GCM) are
  modelled as ideal symbolic primitives: key derivation is a pair of
  secret and salt, and the GCM tag is the triple of key, nonce and
  ciphertext, so that a tag verifies exactly when key, nonce and
  ciphertext all match.  Confidentiality is not modelled, only the
  functional round-trip and authentication behaviour.
* File-system effects (`XdbFile.write`, the restore route) are modelled
  as explicit state passing; the points at which an operation can fail
  are explicit parameters.
-/

namespace Xdb

/-- Single-quote character, used in error messages of the source. -/
def sq : Char := Char.ofNat 39

/-- Backslash character. -/
def bslash : Char := Char.ofNat 92

/-- Single-quote as a one-character string. -/
def sqs : String := String.mk [sq]

/-! ## Value model

The source type of row values is `string | number | boolean | null`
(interface `Row`).  JavaScript numbers are modelled as `Rat` plus a
distinguished `nan`.  -/

/-- Runtime value of a table cell or SQL literal, mirroring the union
`string | number | boolean | null` of the source, with NaN split out. -/
inductive Value where
  | str : String → Value
  | num : Rat → Value
  | nan : Value
  | bool : Bool → Value
  | null : Value
deriving DecidableEq, Repr

/-- Row: an open mapping from column name to value, as an association
list in insertion order (JavaScript object with string keys). -/
abbrev Row := List (String × Value)

/-- Property read `row[key]`: `none` models JavaScript `undefined`. -/
def rowGet (row : Row) (key : String) : Option Value :=
  (row.find? (fun p => p.1 == key)).map (·.2)

/-- Property write `row[key] = v`: updates in place if the key exists
(keeping its position), otherwise appends the key. -/
def rowSet (row : Row) (key : String) (v : Value) : Row :=
  if row.any (fun p => p.1 == key) then
    row.map (fun p => if p.1 == key then (key, v) else p)
  else
    row ++ [(key, v)]

/-! ## Kernel-friendly string helpers

The built-in `String.trim`, `String.toUpper`, `String.startsWith` and
`String.splitOn` loop over byte positions, which the kernel cannot
evaluate; the same operations are defined here on the character list
directly. -/

/-- Trim whitespace from both ends of a character list (JavaScript
`String.prototype.trim`). -/
def trimChars (cs : List Char) : List Char :=
  ((cs.dropWhile Char.isWhitespace).reverse.dropWhile Char.isWhitespace).reverse

/-- Trim whitespace from both ends of a string. -/
def strTrim (s : String) : String := String.mk (trimChars s.data)

/-- Uppercase every character of a string. -/
def strToUpper (s : String) : String := String.mk (s.data.map Char.toUpper)

/-! ## JavaScript numeric and string primitives -/

/-- Digit list to natural number. -/
def digitsToNat (ds : List Char) : Nat :=
  ds.foldl (fun n c => 10 * n + (c.toNat - (Char.ofNat 48).toNat)) 0

/-- Rational with the given integer and fraction digit lists, namely
`intDigits.fracDigits` as a decimal literal. -/
def decimalToRat (intDigits fracDigits : List Char) : Rat :=
  mkRat (digitsToNat (intDigits ++ fracDigits) : Int) (10 ^ fracDigits.length)

/-- Parse an unsigned decimal literal (digits, optional fraction part),
requiring the whole remaining input to be consumed.  Models the body of
`Number(string)` for plain decimal forms. -/
def parseDecimal (cs : List Char) : Option Rat :=
  let intDigits := cs.takeWhile Char.isDigit
  let rest := cs.dropWhile Char.isDigit
  match rest with
  | [] => if intDigits.isEmpty then none else some (decimalToRat intDigits [])
  | c :: rest2 =>
    if c = Char.ofNat 46 then
      let fracDigits := rest2.takeWhile Char.isDigit
      let rest3 := rest2.dropWhile Char.isDigit
      if ¬ rest3.isEmpty then none
      else if intDigits.isEmpty ∧ fracDigits.isEmpty then none
      else some (decimalToRat intDigits fracDigits)
    else none

/-- Model of the JavaScript conversion `Number(string)`: trims
whitespace, maps the empty string to `0`, and parses an optional sign
followed by a decimal literal; `none` models NaN. -/
def jsStringToNumber (s : String) : Option Rat :=
  let t := trimChars s.data
  if t.isEmpty then some 0
  else match t with
    | c :: rest =>
      if c = Char.ofNat 45 then (parseDecimal rest).map (fun q => -q)
      else if c = Char.ofNat 43 then parseDecimal rest
      else parseDecimal t
    | [] => some 0

/-- Parse the longest decimal prefix (used by `parseFloat`): digits with
an optional single fraction part, ignoring any trailing junk. -/
def parseDecimalPrefix (cs : List Char) : Option Rat :=
  let intDigits := cs.takeWhile Char.isDigit
  let rest := cs.dropWhile Char.isDigit
  let (fracDigits, hasDot) :=
    match rest with
    | c :: rest2 =>
      if c = Char.ofNat 46 then (rest2.takeWhile Char.isDigit, true) else ([], false)
    | [] => ([], false)
  if intDigits.isEmpty ∧ (¬ hasDot ∨ fracDigits.isEmpty) then none
  else some (decimalToRat intDigits fracDigits)

/-- Model of JavaScript `parseFloat(string)`: skips leading whitespace,
reads an optional sign and the longest decimal prefix; `none` is NaN. -/
def jsParseFloat (s : String) : Option Rat :=
  match s.data.dropWhile Char.isWhitespace with
  | c :: rest =>
    if c = Char.ofNat 45 then (parseDecimalPrefix rest).map (fun q => -q)
    else if c = Char.ofNat 43 then parseDecimalPrefix rest
    else parseDecimalPrefix (c :: rest)
  | [] => none

/-- Left-pad a string with zeros to the given length. -/
def padZeros (n : Nat) (s : String) : String :=
  String.mk (List.replicate (n - s.length) (Char.ofNat 48)) ++ s

/-- Render a nonnegative rational the way JavaScript prints the
corresponding double: no fraction part for integers, otherwise the
shortest terminating decimal expansion (searched up to 30 digits after
the point; the denominators reachable from the source are all small
powers of ten). -/
def jsNumToStringNonneg (q : Rat) : String :=
  if q.den = 1 then toString q.num
  else
    match (List.range 30).find? (fun k => 10 ^ (k + 1) % q.den = 0) with
    | some k =>
      let m := k + 1
      let n := q.num.toNat * (10 ^ m / q.den)
      toString (n / 10 ^ m) ++ "." ++ padZeros m (toString (n % 10 ^ m))
    | none => toString q.num ++ "/" ++ toString q.den

/-- Render a rational the way JavaScript `String(number)` prints it. -/
def jsNumToString (q : Rat) : String :=
  if q < 0 then "-" ++ jsNumToStringNonneg (-q) else jsNumToStringNonneg q

/-- Model of JavaScript `String(value)` on a defined value. -/
def jsString : Value → String
  | .str s => s
  | .num q => jsNumToString q
  | .nan => "NaN"
  | .bool b => if b then "true" else "false"
  | .null => "null"

/-- Model of JavaScript `String(value)` including `undefined`. -/
def jsStringOpt : Option Value → String
  | none => "undefined"
  | some v => jsString v

/-- Model of JavaScript `Number(value)` on a defined value; `none` is
NaN. -/
def jsNumberOfValue : Value → Option Rat
  | .str s => jsStringToNumber s
  | .num q => some q
  | .nan => none
  | .bool b => some (if b then 1 else 0)
  | .null => some 0

/-- Pack an optional rational back into a `Value` (NaN for `none`). -/
def numberValue : Option Rat → Value
  | some q => .num q
  | none => .nan

/-- Numeric view used by JavaScript relational operators, including the
implicit conversions of `undefined`, `null`, booleans and strings. -/
def jsToNumOpt : Option Value → Option Rat
  | none => none
  | some v => jsNumberOfValue v

/-- Strict equality `===` on defined values: numbers compare as
rationals, `NaN === NaN` is false, values of different types are never
equal. -/
def vStrictEq : Value → Value → Bool
  | .str a, .str b => a == b
  | .num a, .num b => a == b
  | .bool a, .bool b => a == b
  | .null, .null => true
  | _, _ => false

/-- Strict equality `===` lifted to possibly-undefined operands. -/
def jsStrictEq : Option Value → Option Value → Bool
  | none, none => true
  | some a, some b => vStrictEq a b
  | _, _ => false

/-- SameValueZero equality, used by `Array.includes`: as `===` except
that NaN equals NaN. -/
def svzEq : Value → Value → Bool
  | .nan, .nan => true
  | a, b => vStrictEq a b

/-- JavaScript `<` on possibly-undefined operands: two strings compare
lexicographically, otherwise both sides convert to numbers and any NaN
makes the comparison false. -/
def jsLtB (a b : Option Value) : Bool :=
  match a, b with
  | some (.str x), some (.str y) => decide (x < y)
  | _, _ =>
    match jsToNumOpt a, jsToNumOpt b with
    | some x, some y => decide (x < y)
    | _, _ => false

/-- JavaScript `<=` on possibly-undefined operands. -/
def jsLeB (a b : Option Value) : Bool :=
  match a, b with
  | some (.str x), some (.str y) => decide (x ≤ y)
  | _, _ =>
    match jsToNumOpt a, jsToNumOpt b with
    | some x, some y => decide (x ≤ y)
    | _, _ => false

/-! ## Regex-like splitting used by `evaluateCondition` and
`evaluateWhere`

The source matches and splits conditions with the regular expressions
`\s+OP\s+` (operator surrounded by mandatory whitespace, built in the
operator loop of `evaluateCondition` and in the `OR` and `AND`
splits of `evaluateWhere`) and `\s*>\s*` or `\s*<\s*` (optional
whitespace).  These are modelled directly on character lists with
JavaScript leftmost-match semantics. -/

/-- Case-sensitive character equality (regexes without the `i` flag). -/
def charEqCS (a b : Char) : Bool := a == b

/-- Case-insensitive character equality (the `i` flag of the `OR` and
`AND` split regexes). -/
def charEqCI (a b : Char) : Bool := a.toUpper == b.toUpper

/-- Test whether `pat` matches a prefix of `s` under character equality
`eqc`. -/
def matchesAt (eqc : Char → Char → Bool) : List Char → List Char → Bool
  | [], _ => true
  | _ :: _, [] => false
  | p :: ps, c :: cs => eqc p c && matchesAt eqc ps cs

/-- Try to match `\s+op\s+` anchored at the start of the input,
returning the input remaining after the (greedy) match. -/
def tryWsOpWs (eqc : Char → Char → Bool) (op : List Char) : List Char → Option (List Char)
  | [] => none
  | c :: t =>
    if c.isWhitespace then
      let r1 := t.dropWhile Char.isWhitespace
      if matchesAt eqc op r1 then
        match r1.drop op.length with
        | c2 :: t2 => if c2.isWhitespace then some (t2.dropWhile Char.isWhitespace) else none
        | [] => none
      else none
    else none

/-- Find the leftmost match of `\s+op\s+`, returning the text before
the match and the text after it. -/
def findWsOpWs (eqc : Char → Char → Bool) (op : List Char) :
    List Char → Option (List Char × List Char)
  | [] => none
  | c :: t =>
    match tryWsOpWs eqc op (c :: t) with
    | some rest => some ([], rest)
    | none =>
      match findWsOpWs eqc op t with
      | some (pre, rest) => some (c :: pre, rest)
      | none => none

/-- Fuelled form of `String.split` on the regex `\s+op\s+`, splitting at
every match left to right (the fuel only bounds the recursion; one unit
per character of input always suffices). -/
def jsSplitWsOpWsAux (eqc : Char → Char → Bool) (op : List Char) :
    Nat → List Char → List (List Char)
  | 0, s => [s]
  | fuel + 1, s =>
    match findWsOpWs eqc op s with
    | none => [s]
    | some (pre, rest) => pre :: jsSplitWsOpWsAux eqc op fuel rest

/-- JavaScript `s.split(regex)` for the regex `\s+op\s+`. -/
def jsSplitWsOpWs (eqc : Char → Char → Bool) (op : List Char) (s : List Char) :
    List (List Char) :=
  jsSplitWsOpWsAux eqc op (s.length + 1) s

/-- Find the leftmost match of `\s*ch\s*` (a single character with
optional surrounding whitespace), returning the text before and after
the match. -/
def findWsStarCh (ch : Char) : List Char → Option (List Char × List Char)
  | [] => none
  | c :: t =>
    if c == ch then some ([], t.dropWhile Char.isWhitespace)
    else
      let viaWs : Option (List Char) :=
        if c.isWhitespace then
          match t.dropWhile Char.isWhitespace with
          | c2 :: t2 =>
            if c2 == ch then some (t2.dropWhile Char.isWhitespace) else none
          | [] => none
        else none
      match viaWs with
      | some rest => some ([], rest)
      | none =>
        match findWsStarCh ch t with
        | some (pre, rest) => some (c :: pre, rest)
        | none => none

/-- Fuelled splitting on every match of `\s*ch\s*`. -/
def jsSplitWsStarChAux (ch : Char) : Nat → List Char → List (List Char)
  | 0, s => [s]
  | fuel + 1, s =>
    match findWsStarCh ch s with
    | none => [s]
    | some (pre, rest) => pre :: jsSplitWsStarChAux ch fuel rest

/-- JavaScript `s.split(regex)` for the regex `\s*ch\s*`. -/
def jsSplitWsStarCh (ch : Char) (s : List Char) : List (List Char) :=
  jsSplitWsStarChAux ch (s.length + 1) s

/-- Test for the regex `=(?!=)`: an equals sign not followed by another
equals sign. -/
def hasLoneEq : List Char → Bool
  | [] => false
  | c :: t =>
    if c = Char.ofNat 61 then
      match t with
      | c2 :: _ => if c2 = Char.ofNat 61 then hasLoneEq t else true
      | [] => true
    else hasLoneEq t

/-- Split at the first occurrence of a character, returning the text
before it and the text after it. -/
def splitFirstChar (ch : Char) : List Char → Option (List Char × List Char)
  | [] => none
  | c :: t =>
    if c == ch then some ([], t)
    else
      match splitFirstChar ch t with
      | some (pre, rest) => some (c :: pre, rest)
      | none => none

/-- Fuelled splitting at every occurrence of a character. -/
def splitOnCharAux (ch : Char) : Nat → List Char → List (List Char)
  | 0, s => [s]
  | fuel + 1, s =>
    match splitFirstChar ch s with
    | none => [s]
    | some (pre, rest) => pre :: splitOnCharAux ch fuel rest

/-- JavaScript `s.split(ch)` for a single-character separator. -/
def splitOnChar (ch : Char) (s : List Char) : List (List Char) :=
  splitOnCharAux ch (s.length + 1) s

/-- JavaScript `s.startsWith(pat)`. -/
def strStartsWith (s pat : String) : Bool :=
  matchesAt charEqCS pat.data s.data

/-- JavaScript `s.endsWith(pat)`. -/
def strEndsWith (s pat : String) : Bool :=
  matchesAt charEqCS pat.data.reverse s.data.reverse

/-! ## Literal parsing and coercion (`XdbQueryRunner.parseValue`,
`XdbQueryRunner.coerceValue`) -/

/-- Replace every backslash-quote pair by a quote, modelling the
JavaScript `value.replace` of escaped quotes in `parseValue`. -/
def replEscQuote : List Char → List Char
  | [] => []
  | [c] => [c]
  | c :: c2 :: t2 =>
    if c = bslash ∧ c2 = sq then sq :: replEscQuote t2
    else c :: replEscQuote (c2 :: t2)

/-- Drop the first and last character, modelling `value.slice(1, -1)`
on a string known to start and end with a quote. -/
def sliceOneNegOne (s : String) : String :=
  String.mk ((s.data.drop 1).dropLast)

/-- Model of `XdbQueryRunner.parseValue`: case-insensitive literals
NULL, TRUE, FALSE; quoted strings with quote unescaping; otherwise a
numeric parse via `Number`, keeping the raw token as text when the
parse yields NaN (or the token is empty). -/
def parseValue (value : String) : Value :=
  if strToUpper value = "NULL" then .null
  else if strToUpper value = "TRUE" then .bool true
  else if strToUpper value = "FALSE" then .bool false
  else if strStartsWith value sqs ∧ strEndsWith value sqs then
    .str (String.mk (replEscQuote (sliceOneNegOne value).data))
  else
    match jsStringToNumber value with
    | some num => if value ≠ "" then .num num else .str value
    | none => .str value

/-- Model of `XdbQueryRunner.parseArrayValue`: a parenthesised comma
list is split and each element parsed, keeping strings and numbers and
collapsing other parses to the empty string; any other value becomes a
one-element list. -/
def parseArrayValue (value : Value) : List Value :=
  match value with
  | .str s =>
    if strStartsWith s "(" ∧ strEndsWith s ")" then
      ((splitOnChar (Char.ofNat 44) (sliceOneNegOne s).data).map String.mk).map (fun w =>
        match parseValue (strTrim w) with
        | .str x => .str x
        | .num n => .num n
        | .nan => .nan
        | _ => .str "")
    else [value]
  | _ => [value]

/-- Model of `XdbQueryRunner.coerceValue`: null passes through; INTEGER
converts with `Number`, REAL with `parseFloat` of the string rendering,
TEXT with `String`, BLOB and unknown types pass the value through. -/
def coerceValue (value : Value) (type : String) : Value :=
  match value with
  | .null => .null
  | v =>
    if strToUpper type = "INTEGER" then numberValue (jsNumberOfValue v)
    else if strToUpper type = "REAL" then numberValue (jsParseFloat (jsString v))
    else if strToUpper type = "TEXT" then .str (jsString v)
    else if strToUpper type = "BLOB" then v
    else v

/-! ## Condition evaluation (`XdbQueryRunner.evaluateCondition`,
`XdbQueryRunner.evaluateWhere`, `XdbQueryRunner.applyWhere`) -/

/-- Decomposition of a single WHERE condition into operator, left side
and right side. -/
structure CondParts where
  op : String
  left : String
  right : String
deriving DecidableEq, Repr

/-- Operator list of the loop in `evaluateCondition`, in source order;
each is tried as the regex `\s+op\s+` (case-sensitively). -/
def condOperators : List String := [">=", "<=", "!=", "<>", "LIKE", "IN", "IS"]

/-- Try each operator of the loop in order; on the first whose regex
matches, return parts zero and one of the split. -/
def findOpSplit : List String → List Char → Option (String × List Char × List Char)
  | [], _ => none
  | op :: rest, s =>
    match jsSplitWsOpWs charEqCS op.data s with
    | p0 :: p1 :: _ => some (op, p0, p1)
    | _ => findOpSplit rest s

/-- Decompose a condition string the way `evaluateCondition` does:
first the whitespace-delimited multi-character and keyword operators in
loop order, then a lone equals sign, then `>` and `<` with optional
whitespace; `none` corresponds to the case where no operator was
recognised. -/
def parseCondParts (condition : String) : Option CondParts :=
  let cs := condition.data
  match findOpSplit condOperators cs with
  | some (op, l, r) => some ⟨op, String.mk (trimChars l), String.mk (trimChars r)⟩
  | none =>
    if hasLoneEq cs then
      match splitFirstChar (Char.ofNat 61) cs with
      | some (l, r) => some ⟨"=", String.mk (trimChars l), String.mk (trimChars r)⟩
      | none => none
    else
      match jsSplitWsStarCh (Char.ofNat 62) cs with
      | p0 :: p1 :: _ => some ⟨">", String.mk (trimChars p0), String.mk (trimChars p1)⟩
      | _ =>
        match jsSplitWsStarCh (Char.ofNat 60) cs with
        | p0 :: p1 :: _ => some ⟨"<", String.mk (trimChars p0), String.mk (trimChars p1)⟩
        | _ => none

/-- Remove every percent character, modelling the wildcard stripping of
the LIKE branch. -/
def stripPercent (s : String) : String :=
  String.mk (s.data.filter (fun c => c ≠ Char.ofNat 37))

/-- Substring containment on character lists, modelling
`String.prototype.includes`. -/
def containsSub (needle : List Char) : List Char → Bool
  | [] => needle.isEmpty
  | c :: t => matchesAt charEqCS needle (c :: t) || containsSub needle t

/-- Evaluate the switch of `evaluateCondition` once operator, left
value and right value are known. -/
def evalCondOp (op : String) (leftValue : Option Value) (rightValue : Value) : Bool :=
  if op = "=" then jsStrictEq leftValue (some rightValue)
  else if op = ">" then
    !jsStrictEq leftValue (some .null) && !vStrictEq rightValue .null &&
      jsLtB (some rightValue) leftValue
  else if op = "<" then
    !jsStrictEq leftValue (some .null) && !vStrictEq rightValue .null &&
      jsLtB leftValue (some rightValue)
  else if op = ">=" then
    !jsStrictEq leftValue (some .null) && !vStrictEq rightValue .null &&
      jsLeB (some rightValue) leftValue
  else if op = "<=" then
    !jsStrictEq leftValue (some .null) && !vStrictEq rightValue .null &&
      jsLeB leftValue (some rightValue)
  else if op = "!=" ∨ op = "<>" then !jsStrictEq leftValue (some rightValue)
  else if op = "LIKE" then
    containsSub (stripPercent (jsString rightValue)).data (jsStringOpt leftValue).data
  else if op = "IN" then
    match leftValue with
    | some lv => (parseArrayValue rightValue).any (fun e => svzEq e lv)
    | none => false
  else if op = "IS" then
    if vStrictEq rightValue (.str "NULL") then jsStrictEq leftValue (some .null)
    else !jsStrictEq leftValue (some .null)
  else false

/-- Model of `XdbQueryRunner.evaluateCondition`: decompose the
condition, fail when no operator or an empty left side was found, look
the left side up in the row, parse the right side and evaluate. -/
def evaluateCondition (row : Row) (condition : String) : Except String Bool :=
  match parseCondParts condition with
  | none => .error ("Invalid WHERE condition: " ++ condition)
  | some parts =>
    if parts.left = "" then .error ("Invalid WHERE condition: " ++ condition)
    else
      .ok (evalCondOp parts.op (rowGet row parts.left) (parseValue parts.right))

/-- Short-circuiting `Array.some` with a callback that can throw. -/
def exceptAny (f : α → Except ε Bool) : List α → Except ε Bool
  | [] => .ok false
  | x :: xs => do
    let b ← f x
    if b then .ok true else exceptAny f xs

/-- Short-circuiting `Array.every` with a callback that can throw. -/
def exceptAll (f : α → Except ε Bool) : List α → Except ε Bool
  | [] => .ok true
  | x :: xs => do
    let b ← f x
    if b then exceptAll f xs else .ok false

/-- Model of `XdbQueryRunner.evaluateWhere`: split on `OR` (outer) and
`AND` (inner), both case-insensitively with mandatory whitespace; a row
matches when some OR branch has all its AND branches hold. -/
def evaluateWhere (row : Row) (whereClause : String) : Except String Bool :=
  let orParts := (jsSplitWsOpWs charEqCI "OR".data whereClause.data).map String.mk
  exceptAny (fun orPart =>
    let andParts := (jsSplitWsOpWs charEqCI "AND".data orPart.data).map String.mk
    exceptAll (fun andPart => evaluateCondition row andPart) andParts) orParts

/-- Order-preserving filter with a predicate that can throw
(`Array.filter` with a throwing callback). -/
def exceptFilter (f : α → Except ε Bool) : List α → Except ε (List α)
  | [] => .ok []
  | x :: xs => do
    let b ← f x
    let r ← exceptFilter f xs
    .ok (if b then x :: r else r)

/-- Model of `XdbQueryRunner.applyWhere`: keep the rows on which the
predicate holds (or does not hold, when inverted for DELETE). -/
def applyWhere (rows : List Row) (whereClause : String) (invert : Bool := false) :
    Except String (List Row) :=
  exceptFilter (fun row => do
    let result ← evaluateWhere row whereClause
    .ok (if invert then !result else result)) rows

deriving instance DecidableEq for Except

/-! ## Tables and schema (interfaces `Column` and `Table` of the
source types module)

Index descriptors and default literals are omitted: no verified code
path reads them. -/

/-- Column definition: name, declared type string, primary-key flag and
not-null flag. -/
structure Column where
  name : String
  type : String
  primaryKey : Bool := false
  notNull : Bool := false
deriving DecidableEq, Repr

/-- Table: name, ordered column definitions and the row sequence
(`table.data`, already initialised to the empty list). -/
structure Table where
  name : String
  columns : List Column
  data : List Row
deriving DecidableEq, Repr

/-! ## INSERT and UPDATE (`XdbQueryRunner.executeInsert`,
`XdbQueryRunner.validatePrimaryKeyConstraint`,
`XdbQueryRunner.executeUpdate`)

The regular-expression decomposition of the INSERT and UPDATE statement
text into table name, column list, value list and SET assignments is
not modelled; these functions take the structured clauses that the
source extracts from the match groups.  Values are the output of
`parseValue`, as in the source. -/

/-- Duplicate test of the inner loop of `validatePrimaryKeyConstraint`:
an existing row counts as a duplicate of the new row when every
primary-key column compares strictly equal (`===`) between the two,
absent properties included. -/
def pkDup (columns : List Column) (existingRow newRow : Row) : Bool :=
  (columns.filter (·.primaryKey)).all (fun pk =>
    jsStrictEq (rowGet existingRow pk.name) (rowGet newRow pk.name))

/-- Error message raised on a primary-key violation, naming the
primary-key column(s). -/
def pkViolationMsg (columns : List Column) : String :=
  "PRIMARY KEY constraint violation: Duplicate value for column(s) " ++
    sqs ++ String.intercalate ", " ((columns.filter (·.primaryKey)).map (·.name)) ++ sqs

/-- Model of `XdbQueryRunner.validatePrimaryKeyConstraint`: with no
primary-key column the check passes; otherwise the first existing row
agreeing with the new row on every primary-key column raises the
violation. -/
def validatePrimaryKeyConstraint (table : Table) (newRow : Row) : Except String Unit :=
  let primaryKeyColumns := table.columns.filter (·.primaryKey)
  if primaryKeyColumns.isEmpty then .ok ()
  else
    match table.data.find? (fun existingRow => pkDup table.columns existingRow newRow) with
    | some _ => .error (pkViolationMsg table.columns)
    | none => .ok ()

/-- Row-building loop of `executeInsert`: look each column name up in
the schema (SchemaError when absent) and store the coerced value. -/
def buildInsertRow (table : Table) : List (String × Value) → Row → Except String Row
  | [], row => .ok row
  | (colName, value) :: rest, row =>
    match table.columns.find? (fun c => c.name == colName) with
    | none =>
      .error ("Column " ++ sqs ++ colName ++ sqs ++ " does not exist in table " ++
        sqs ++ table.name ++ sqs)
    | some column => buildInsertRow table rest (rowSet row colName (coerceValue value column.type))

/-- Model of `XdbQueryRunner.executeInsert` after statement
decomposition: check the column/value count, build the coerced row,
validate the primary-key constraint, then append exactly one row and
report one affected row. -/
def executeInsert (table : Table) (columnNames : List String) (values : List Value) :
    Except String (Table × Nat) :=
  if columnNames.length ≠ values.length then
    .error "Column count does not match value count"
  else do
    let row ← buildInsertRow table (columnNames.zip values) []
    let _ ← validatePrimaryKeyConstraint table row
    .ok ({ table with data := table.data ++ [row] }, 1)

/-- Assignment loop of `executeUpdate` for one matched row: an
assignment whose column exists stores the coerced value; an assignment
naming an unknown column is skipped silently. -/
def applySetAssignments (columns : List Column) : List (String × Value) → Row → Row
  | [], row => row
  | a :: rest, row =>
    match columns.find? (fun c => c.name == a.1) with
    | some column => applySetAssignments columns rest (rowSet row a.1 (coerceValue a.2 column.type))
    | none => applySetAssignments columns rest row

/-- Per-row match test of `executeUpdate`: no WHERE clause matches
every row. -/
def rowMatches (row : Row) : Option String → Except String Bool
  | none => .ok true
  | some whereClause => evaluateWhere row whereClause

/-- Row loop of `executeUpdate`: each matched row is updated in place
and counted; the affected count is the number of matched rows, not the
number of applied assignments. -/
def updateRows (columns : List Column) (assignments : List (String × Value))
    (whereClause : Option String) : List Row → Except String (List Row × Nat)
  | [] => .ok ([], 0)
  | row :: rest => do
    let matched ← rowMatches row whereClause
    let row2 := if matched then applySetAssignments columns assignments row else row
    let (rest2, n) ← updateRows columns assignments whereClause rest
    .ok (row2 :: rest2, n + if matched then 1 else 0)

/-- Model of `XdbQueryRunner.executeUpdate` after statement
decomposition (table, parsed SET assignments, optional WHERE text). -/
def executeUpdate (table : Table) (assignments : List (String × Value))
    (whereClause : Option String) : Except String (Table × Nat) := do
  let (rows2, n) ← updateRows table.columns assignments whereClause table.data
  .ok ({ table with data := rows2 }, n)

/-- Pairwise primary-key uniqueness over a row sequence: no later row
is a `===`-duplicate of an earlier one on all primary-key columns. -/
def pkUniqueRows (columns : List Column) : List Row → Bool
  | [] => true
  | row :: rest => rest.all (fun later => !(pkDup columns row later)) && pkUniqueRows columns rest

/-- Primary-key uniqueness invariant of a table. -/
def pkUnique (table : Table) : Bool :=
  pkUniqueRows table.columns table.data

/-! ## Cipher module (`crypto.ts`)

The external primitives are modelled symbolically.  `deriveKey` of the
source computes an Argon2id hash whose output is discarded and returns
`scryptSync(secret, salt, 32)`; scrypt is modelled as the ideal
deterministic, collision-free function of secret and salt.  AES-256-GCM
is modelled with an opaque ciphertext (carried as the plaintext string)
and an authentication tag that records key, nonce and ciphertext, so
that the tag verifies exactly when all three match. -/

/-- Ideal model of the scrypt-derived 256-bit key: determined by, and
determining, the secret and the salt. -/
structure DerivedKey where
  secret : String
  salt : String
deriving DecidableEq, Repr

/-- Model of `deriveKey`: the Argon2id pass does not contribute to the
returned key material; the scrypt derivation over secret and salt is
the key used by the cipher. -/
def deriveKey (secret : String) (salt : String) : DerivedKey := ⟨secret, salt⟩

/-- Ideal GCM authentication tag: records the key, nonce and ciphertext
it authenticates. -/
structure AuthTag where
  key : DerivedKey
  nonce : String
  ciphertext : String
deriving DecidableEq, Repr

/-- On-disk encrypted wrapper (interface `EncryptedData`): ciphertext,
nonce, authentication tag and salt. -/
structure EncryptedData where
  ciphertext : String
  nonce : String
  tag : AuthTag
  salt : String
deriving DecidableEq, Repr

/-- Ideal AES-256-GCM encryption: the ciphertext is the plaintext kept
opaque, the tag binds key, nonce and ciphertext. -/
def aesGcmEncrypt (key : DerivedKey) (nonce : String) (plaintext : String) :
    String × AuthTag :=
  (plaintext, ⟨key, nonce, plaintext⟩)

/-- Ideal AES-256-GCM decryption: verifies the tag against key, nonce
and ciphertext and fails when it does not match. -/
def aesGcmDecrypt (key : DerivedKey) (nonce : String) (ciphertext : String)
    (tag : AuthTag) : Except String String :=
  if tag = ⟨key, nonce, ciphertext⟩ then .ok ciphertext
  else .error "Unsupported state or unable to authenticate data"

/-- Model of `encrypt`: the random salt and nonce drawn by
`randomBytes` are explicit parameters; derive the key from the fresh
salt, encrypt, and return the wrapper carrying ciphertext, nonce, tag
and salt. -/
def encrypt (plaintext : String) (encryptionKey : String) (salt nonce : String) :
    EncryptedData :=
  let key := deriveKey encryptionKey salt
  let (ciphertext, tag) := aesGcmEncrypt key nonce plaintext
  ⟨ciphertext, nonce, tag, salt⟩

/-- Model of `decrypt`: re-derive the key from the stored salt, decrypt
with the stored nonce and tag, and wrap any cipher failure in the
decryption error surfaced to the caller. -/
def decrypt (encryptedData : EncryptedData) (encryptionKey : String) :
    Except String String :=
  let key := deriveKey encryptionKey encryptedData.salt
  match aesGcmDecrypt key encryptedData.nonce encryptedData.ciphertext encryptedData.tag with
  | .ok plaintext => .ok plaintext
  | .error e => .error ("Decryption failed: " ++ e)

/-! ## Atomic file store (`XdbFile.ts`)

The file system visible to one `XdbFile` is the pair of the target
path content and the sibling temporary path content (`none` when the
file does not exist).  `write` can fail at three points: encrypting,
writing the temporary file, or renaming it over the target; the failure
point is an explicit parameter (`none` for a run with no failure). -/

/-- Contents of the two paths an `XdbFile` touches. -/
structure FsState where
  target : Option EncryptedData
  temp : Option EncryptedData
deriving DecidableEq, Repr

/-- Failure points of `XdbFile.write`. -/
inductive WriteStep where
  | encryptStep
  | tempWriteStep
  | renameStep
deriving DecidableEq, Repr

/-- Model of `XdbFile.read`: an absent target file reads as the empty
document; otherwise the wrapper is decrypted. -/
def xdbFileRead (s : FsState) (encryptionKey : String) : Except String String :=
  match s.target with
  | none => .ok "{}"
  | some payload =>
    match decrypt payload encryptionKey with
    | .ok plaintext => .ok plaintext
    | .error e => .error ("Failed to read database file: " ++ e)

/-- Model of `XdbFile.write`: reject when a write is in flight;
otherwise encrypt, write the wrapper to the temporary path, and rename
it over the target.  On failure at any step the catch block removes the
temporary file, leaves the target untouched and propagates the error;
on success the target holds the new wrapper and the temporary file is
gone (consumed by the rename). -/
def xdbFileWrite (s : FsState) (content : String) (encryptionKey : String)
    (salt nonce : String) (writeInProgress : Bool) (failAt : Option WriteStep) :
    FsState × Except String Unit :=
  if writeInProgress then
    (s, .error "Another write operation is in progress")
  else
    match failAt with
    | some .encryptStep => ({ s with temp := none }, .error "Failed to write database file")
    | some .tempWriteStep => ({ s with temp := none }, .error "Failed to write database file")
    | some .renameStep => ({ s with temp := none }, .error "Failed to write database file")
    | none =>
      let payload := encrypt content encryptionKey salt nonce
      (⟨some payload, none⟩, .ok ())

/-! ## System registry (`systemCore.ts`) -/

/-- Backup record held in the system core (interface
`SystemBackupRecord`; the checksum map is carried as an association
list). -/
structure SystemBackupRecord where
  backupId : String
  createdAt : String
  password : String
  fileCount : Nat
  totalSize : Nat
  status : String
deriving DecidableEq, Repr

/-- In-memory system core state (interface `SystemXdbCore`, the fields
the registry operations touch). -/
structure SystemCoreState where
  backups : List SystemBackupRecord
  maxBackups : Nat
  lastBackupId : Option String
deriving DecidableEq, Repr

/-- Model of `addBackupToCore`: append the new record, remember its
identifier, and when the count now exceeds the maximum drop the first
(oldest) record. -/
def addBackupToCore (core : SystemCoreState) (backup : SystemBackupRecord) :
    SystemCoreState :=
  let bs := core.backups ++ [backup]
  let bs2 := if bs.length > core.maxBackups then bs.drop 1 else bs
  { core with backups := bs2, lastBackupId := some backup.backupId }

/-! ## Restore pipeline (system restore route, `PUT`)

The per-file loop of the route is modelled with the extracted archive
as a partial map from filename to content, the hash as an explicit
function parameter (SHA-256 in the source), and the set of files whose
copy into the data root fails as a predicate. -/

/-- Manifest entry of the backup overview: filename and recorded
checksum. -/
structure BackupFileInfo where
  filename : String
  checksum : String
deriving DecidableEq, Repr

/-- Validation loop of the route: a listed file missing from the
extracted archive or hashing differently from its recorded checksum is
recorded as a failure; the rest become the files to restore. -/
def validateBackupFiles (files : List BackupFileInfo) (extracted : String → Option String)
    (hash : String → String) : List (String × String) × List String :=
  files.foldl (fun acc fileInfo =>
    match extracted fileInfo.filename with
    | none => (acc.1 ++ [(fileInfo.filename, "File not found in archive")], acc.2)
    | some content =>
      let actualChecksum := hash content
      if actualChecksum ≠ fileInfo.checksum then
        (acc.1 ++ [(fileInfo.filename,
          "Checksum mismatch (expected " ++ fileInfo.checksum ++ ", got " ++
            actualChecksum ++ ")")], acc.2)
      else (acc.1, acc.2 ++ [fileInfo.filename])) ([], [])

/-- Restore loop of the route: each validated file is copied into the
data root, counting successes and recording copy failures. -/
def restoreValidFiles (filesToRestore : List String) (restoreFails : String → Bool) :
    Nat × List (String × String) :=
  filesToRestore.foldl (fun acc fileName =>
    if restoreFails fileName then (acc.1, acc.2 ++ [(fileName, "Failed to restore")])
    else (acc.1 + 1, acc.2)) (0, [])

/-- Status expression of the route: success with zero failures,
otherwise partial when the failure count is below the number of files
that passed validation, otherwise failed. -/
def restoreStatus (failuresLen filesToRestoreLen : Nat) : String :=
  if failuresLen = 0 then "success"
  else if failuresLen < filesToRestoreLen then "partial"
  else "failed"

/-- Outcome report of one restore run: overall status, number of files
restored, and the failure list. -/
structure RestoreOutcome where
  status : String
  restoredCount : Nat
  failures : List (String × String)
deriving DecidableEq, Repr

/-- Restoration body of the route, from checksum validation to the
status computation. -/
def runRestore (files : List BackupFileInfo) (extracted : String → Option String)
    (hash : String → String) (restoreFails : String → Bool) : RestoreOutcome :=
  let v := validateBackupFiles files extracted hash
  let r := restoreValidFiles v.2 restoreFails
  let failures := v.1 ++ r.2
  ⟨restoreStatus failures.length v.2.length, r.1, failures⟩

/-! ## General lemmas on the `Except` combinators -/

/-- Bind on a successful `Except` computation. -/
@[simp] theorem except_bind_ok_eq (a : α) (f : α → Except ε β) :
    (Except.ok a >>= f) = f a := rfl

/-- Bind on a failed `Except` computation. -/
@[simp] theorem except_bind_error_eq (e : ε) (f : α → Except ε β) :
    ((Except.error e : Except ε α) >>= f) = .error e := rfl

/-- Pure in the `Except` monad. -/
@[simp] theorem except_pure_eq (a : α) : (pure a : Except ε α) = .ok a := rfl

/-- An error result of `exceptAny` originates from the callback on some
element. -/
theorem exceptAny_error_mem {f : α → Except ε Bool} :
    ∀ {l : List α} {e : ε}, exceptAny f l = .error e → ∃ x ∈ l, f x = .error e := by
  intro l
  induction l with
  | nil => intro e h; simp [exceptAny] at h
  | cons x xs ih =>
    intro e h
    rw [exceptAny] at h
    cases hfx : f x with
    | error e2 =>
      rw [hfx] at h
      simp at h
      exact ⟨x, List.mem_cons_self x xs, by rw [hfx, h]⟩
    | ok b =>
      rw [hfx] at h
      simp at h
      cases b with
      | true => simp at h
      | false =>
        simp at h
        obtain ⟨y, hy, hfy⟩ := ih h
        exact ⟨y, List.mem_cons_of_mem x hy, hfy⟩

/-- An error result of `exceptAll` originates from the callback on some
element. -/
theorem exceptAll_error_mem {f : α → Except ε Bool} :
    ∀ {l : List α} {e : ε}, exceptAll f l = .error e → ∃ x ∈ l, f x = .error e := by
  intro l
  induction l with
  | nil => intro e h; simp [exceptAll] at h
  | cons x xs ih =>
    intro e h
    rw [exceptAll] at h
    cases hfx : f x with
    | error e2 =>
      rw [hfx] at h
      simp at h
      exact ⟨x, List.mem_cons_self x xs, by rw [hfx, h]⟩
    | ok b =>
      rw [hfx] at h
      simp at h
      cases b with
      | true =>
        simp at h
        obtain ⟨y, hy, hfy⟩ := ih h
        exact ⟨y, List.mem_cons_of_mem x hy, hfy⟩
      | false => simp at h

/-- `exceptAny` on a one-element list returns the callback value. -/
theorem exceptAny_singleton {f : α → Except ε Bool} {x : α} {b : Bool}
    (h : f x = .ok b) : exceptAny f [x] = .ok b := by
  rw [exceptAny, h]
  cases b <;> simp [exceptAny]

/-- `exceptAll` on a two-element list is the conjunction of the two
callback values. -/
theorem exceptAll_pair {f : α → Except ε Bool} {x y : α} {b1 b2 : Bool}
    (hx : f x = .ok b1) (hy : f y = .ok b2) :
    exceptAll f [x, y] = .ok (b1 && b2) := by
  rw [exceptAll, hx]
  cases b1 with
  | true =>
    simp only [except_bind_ok_eq, if_true]
    rw [exceptAll, hy]
    cases b2 <;> simp [exceptAll]
  | false => simp [exceptAll]

/-! ## Sample data used by witnesses and counterexamples -/

/-- Two-column table with a primary-key INTEGER column and a not-null
TEXT column, holding one row. -/
def usersTable : Table :=
  ⟨"users",
   [⟨"id", "INTEGER", true, true⟩, ⟨"name", "TEXT", false, true⟩],
   [[("id", .num 1), ("name", .str "Alice")]]⟩

/-- Sample backup record. -/
def recA : SystemBackupRecord := ⟨"backup_a", "2026-01-01", "pw_a", 1, 10, "success"⟩

/-- Second sample backup record. -/
def recB : SystemBackupRecord := ⟨"backup_b", "2026-01-02", "pw_b", 1, 12, "success"⟩

/-- Third sample backup record. -/
def recC : SystemBackupRecord := ⟨"backup_c", "2026-01-03", "pw_c", 1, 14, "success"⟩

/-! ## Claim C4: encrypt/decrypt round-trip -/

/-- C4: for every plaintext and secret (and any salt and nonce drawn
for the payload), decrypting the payload produced by `encrypt` with the
same secret returns exactly the plaintext; the salt stored in the
payload re-derives the same key and the stored nonce and tag verify. -/
theorem decrypt_encrypt_roundtrip (m secret salt nonce : String) :
    decrypt (encrypt m secret salt nonce) secret = .ok m := by
  simp [decrypt, encrypt, aesGcmEncrypt, aesGcmDecrypt, deriveKey]

/-! ## Claim C6: decryption with a wrong secret fails -/

/-- C6: for every message and pair of distinct secrets, decrypting the
payload encrypted under the first secret with the second fails with the
authentication error, surfaced as an error rather than as empty data. -/
theorem decrypt_wrong_secret_fails (m secret1 secret2 salt nonce : String)
    (h : secret1 ≠ secret2) :
    decrypt (encrypt m secret1 salt nonce) secret2 =
      .error ("Decryption failed: Unsupported state or unable to authenticate data") := by
  simp [decrypt, encrypt, aesGcmEncrypt, aesGcmDecrypt, deriveKey, AuthTag.mk.injEq,
    DerivedKey.mk.injEq, h]

/-- Witness for C6 at concrete distinct secrets. -/
theorem decrypt_wrong_secret_fails_witness :
    "key-one" ≠ "key-two" ∧
    decrypt (encrypt "hello" "key-one" "salt0" "nonce0") "key-two" =
      .error ("Decryption failed: Unsupported state or unable to authenticate data") :=
  ⟨by decide, decrypt_wrong_secret_fails "hello" "key-one" "key-two" "salt0" "nonce0"
    (by decide)⟩

/-! ## Claim C5: failed writes leave the target readable content
unchanged -/

/-- C5: a write that fails at the encryption, temporary-file or rename
step leaves the target file content unchanged (a subsequent read
returns the prior value), removes the temporary file, and propagates
the error to the caller. -/
theorem xdbFileWrite_failure_atomic (s : FsState) (content encryptionKey salt nonce : String)
    (step : WriteStep) :
    (xdbFileWrite s content encryptionKey salt nonce false (some step)).1.target = s.target ∧
    (xdbFileWrite s content encryptionKey salt nonce false (some step)).1.temp = none ∧
    (xdbFileWrite s content encryptionKey salt nonce false (some step)).2 =
      .error "Failed to write database file" ∧
    xdbFileRead (xdbFileWrite s content encryptionKey salt nonce false (some step)).1
        encryptionKey =
      xdbFileRead s encryptionKey := by
  cases step <;> simp [xdbFileWrite, xdbFileRead]

/-! ## Claim C7: registry eviction bound -/

/-- C7: starting from a registry holding at most `maxBackups` records,
adding a backup record keeps the count at most `maxBackups`; below the
maximum the record is appended, and at the maximum the first-inserted
(oldest) record is the one dropped. -/
theorem addBackupToCore_bounded (core : SystemCoreState) (b : SystemBackupRecord)
    (h : core.backups.length ≤ core.maxBackups) :
    (addBackupToCore core b).backups.length ≤ core.maxBackups ∧
    (core.backups.length < core.maxBackups →
      (addBackupToCore core b).backups = core.backups ++ [b]) ∧
    (core.backups.length = core.maxBackups →
      (addBackupToCore core b).backups = (core.backups ++ [b]).drop 1) := by
  refine ⟨?_, ?_, ?_⟩ <;> simp only [addBackupToCore] <;> split
  · simp only [List.length_drop, List.length_append, List.length_cons, List.length_nil]
    omega
  · next hgt =>
    simp only [List.length_append, List.length_cons, List.length_nil] at hgt ⊢
    omega
  · next hgt =>
    intro hlt
    simp only [List.length_append, List.length_cons, List.length_nil] at hgt
    omega
  · intro _
    rfl
  · intro _
    rfl
  · next hgt =>
    intro heq
    simp only [List.length_append, List.length_cons, List.length_nil] at hgt
    omega

/-- Witness for C7: a registry at its maximum of two records evicts the
oldest on the next insertion. -/
theorem addBackupToCore_bounded_witness :
    (⟨[recA, recB], 2, some "backup_b"⟩ : SystemCoreState).backups.length ≤ 2 ∧
    ((addBackupToCore ⟨[recA, recB], 2, some "backup_b"⟩ recC).backups.length ≤ 2 ∧
     ([recA, recB].length < 2 →
       (addBackupToCore ⟨[recA, recB], 2, some "backup_b"⟩ recC).backups =
         [recA, recB] ++ [recC]) ∧
     ([recA, recB].length = 2 →
       (addBackupToCore ⟨[recA, recB], 2, some "backup_b"⟩ recC).backups =
         ([recA, recB] ++ [recC]).drop 1)) :=
  ⟨by decide, addBackupToCore_bounded ⟨[recA, recB], 2, some "backup_b"⟩ recC (by decide)⟩

/-! ## Claim C1: restore status on a two-file archive with one
corrupted file

The status expression of the restore route compares the failure count
with the number of files that passed validation, not with the number of
listed files.  With two listed files of which one fails its checksum,
one file is restored, yet the computed status is `failed` instead of
the `partial` the specification requires.  The following closed
evaluation exhibits this divergence. -/

/-- Manifest of a two-file archive. -/
def twoFileManifest : List BackupFileInfo :=
  [⟨"dbA.xdb", "hashA"⟩, ⟨"dbB.xdb", "hashB"⟩]

/-- Extracted archive contents in which the first file is corrupted. -/
def twoFileExtract : String → Option String := fun n =>
  if n = "dbA.xdb" then some "corrupted-bytes"
  else if n = "dbB.xdb" then some "good-bytes" else none

/-- Content hash under which the intact file matches its recorded
checksum and the corrupted one does not. -/
def twoFileHash : String → String := fun c =>
  if c = "good-bytes" then "hashB" else "hash-of-corrupted"

/-- C1 (divergence): restoring a two-file archive with exactly one
corrupted file restores the other file (restored count one of two) and
records the corrupted file with a checksum-mismatch reason, yet the
computed overall status is `failed`, where the claim requires
`partial`. -/
theorem runRestore_one_corrupted_file_status :
    runRestore twoFileManifest twoFileExtract twoFileHash (fun _ => false) =
      ⟨"failed", 1,
        [("dbA.xdb", "Checksum mismatch (expected hashA, got hash-of-corrupted)")]⟩ ∧
    twoFileManifest.length = 2 := by
  decide

/-! ## Claim C3: not-null enforcement

The source performs no not-null check on INSERT or UPDATE: the
following closed evaluation shows an INSERT completing without error
while storing `null` in a column flagged not-null. -/

/-- C3 (divergence): inserting `null` into the not-null TEXT column of
`usersTable` succeeds and appends the row with the null value, where
the claim requires the statement to fail before any row change. -/
theorem executeInsert_stores_null_in_notNull_column :
    executeInsert usersTable ["id", "name"] [.num 2, .null] =
      .ok ({ usersTable with
              data := usersTable.data ++ [[("id", .num 2), ("name", .null)]] }, 1) ∧
    (usersTable.columns.find? (fun c => c.name == "name")).map (·.notNull) = some true ∧
    rowGet [("id", Value.num 2), ("name", Value.null)] "name" = some .null := by
  decide

/-! ## Claim C9: coercion table -/

/-- C9 (counterexample): coercion to INTEGER does not truncate a
fractional value; seven halves is stored unchanged, not as three (nor
four). -/
theorem coerceValue_integer_keeps_fraction :
    coerceValue (.num (mkRat 7 2)) "INTEGER" = .num (mkRat 7 2) ∧
    (mkRat 7 2).den ≠ 1 ∧
    Value.num (mkRat 7 2) ≠ .num 3 ∧
    Value.num (mkRat 7 2) ≠ .num 4 := by
  decide

/-- C9 (amended): null is preserved for every destination type; INTEGER
converts with the JavaScript `Number` conversion and keeps fractional
values unchanged (no truncation); REAL parses a float from the string
rendering; TEXT produces the string rendering; BLOB passes the value
through. -/
theorem coerceValue_amended :
    (∀ ty : String, coerceValue .null ty = .null) ∧
    (∀ q : Rat, coerceValue (.num q) "INTEGER" = .num q) ∧
    (∀ s : String, coerceValue (.str s) "INTEGER" = numberValue (jsStringToNumber s)) ∧
    (∀ b : Bool, coerceValue (.bool b) "INTEGER" = .num (if b then 1 else 0)) ∧
    (∀ v : Value, v ≠ .null → coerceValue v "REAL" = numberValue (jsParseFloat (jsString v))) ∧
    (∀ v : Value, v ≠ .null → coerceValue v "TEXT" = .str (jsString v)) ∧
    (∀ v : Value, v ≠ .null → coerceValue v "BLOB" = v) := by
  have hI : strToUpper "INTEGER" = "INTEGER" := by decide
  have hRI : ¬ strToUpper "REAL" = "INTEGER" := by decide
  have hRR : strToUpper "REAL" = "REAL" := by decide
  have hTI : ¬ strToUpper "TEXT" = "INTEGER" := by decide
  have hTR : ¬ strToUpper "TEXT" = "REAL" := by decide
  have hTT : strToUpper "TEXT" = "TEXT" := by decide
  have hBI : ¬ strToUpper "BLOB" = "INTEGER" := by decide
  have hBR : ¬ strToUpper "BLOB" = "REAL" := by decide
  have hBT : ¬ strToUpper "BLOB" = "TEXT" := by decide
  have hBB : strToUpper "BLOB" = "BLOB" := by decide
  refine ⟨fun ty => rfl, fun q => ?_, fun s => ?_, fun b => ?_,
    fun v hv => ?_, fun v hv => ?_, fun v hv => ?_⟩
  · simp [coerceValue, hI, jsNumberOfValue, numberValue]
  · simp [coerceValue, hI, jsNumberOfValue]
  · cases b <;> simp [coerceValue, hI, jsNumberOfValue, numberValue]
  · cases v <;> simp_all [coerceValue, hRI, hRR]
  · cases v <;> simp_all [coerceValue, hTI, hTR, hTT]
  · cases v <;> simp_all [coerceValue, hBI, hBR, hBT, hBB]

/-- Witness for C9 (amended) at a concrete non-null value. -/
theorem coerceValue_amended_witness :
    (Value.bool true ≠ Value.null) ∧ coerceValue (.bool true) "TEXT" = .str "true" :=
  ⟨by decide, by
    have h := coerceValue_amended
    exact (h.2.2.2.2.2.1 (Value.bool true) (by decide)).trans (by decide)⟩

/-! ## Claim C8: multi-character operators split before
single-character ones -/

/-- Numeric test the WHERE clause `age > 25 AND age < 35` performs on a
row with a numeric age. -/
def ageBetween25And35 (r : Row) : Bool :=
  match rowGet r "age" with
  | some (.num p) => decide ((25 : Rat) < p) && decide (p < 35)
  | _ => false

/-- Rows whose age column holds a number. -/
def hasNumericAge (r : Row) : Bool :=
  match rowGet r "age" with
  | some (.num _) => true
  | _ => false

/-- Evaluating the condition `age >= 26` on a row with numeric age
compares with the single operator `>=`. -/
theorem evaluateCondition_age_ge26 (row : Row) (q : Rat)
    (h : rowGet row "age" = some (.num q)) :
    evaluateCondition row "age >= 26" = .ok (decide ((26 : Rat) ≤ q)) := by
  have hp : parseCondParts "age >= 26" = some ⟨">=", "age", "26"⟩ := by decide
  have hv : parseValue "26" = .num 26 := by decide
  simp [evaluateCondition, hp, hv, h, evalCondOp, jsStrictEq, vStrictEq, jsLeB, jsToNumOpt,
    jsNumberOfValue]

/-- Evaluating the condition `age > 25` on a row with numeric age. -/
theorem evaluateCondition_age_gt25 (row : Row) (q : Rat)
    (h : rowGet row "age" = some (.num q)) :
    evaluateCondition row "age > 25" = .ok (decide ((25 : Rat) < q)) := by
  have hp : parseCondParts "age > 25" = some ⟨">", "age", "25"⟩ := by decide
  have hv : parseValue "25" = .num 25 := by decide
  simp [evaluateCondition, hp, hv, h, evalCondOp, jsStrictEq, vStrictEq, jsLtB, jsToNumOpt,
    jsNumberOfValue]

/-- Evaluating the condition `age < 35` on a row with numeric age. -/
theorem evaluateCondition_age_lt35 (row : Row) (q : Rat)
    (h : rowGet row "age" = some (.num q)) :
    evaluateCondition row "age < 35" = .ok (decide (q < (35 : Rat))) := by
  have hp : parseCondParts "age < 35" = some ⟨"<", "age", "35"⟩ := by decide
  have hv : parseValue "35" = .num 35 := by decide
  simp [evaluateCondition, hp, hv, h, evalCondOp, jsStrictEq, vStrictEq, jsLtB, jsToNumOpt,
    jsNumberOfValue]

/-- Evaluating `age > 25 AND age < 35` on a row with numeric age tests
both bounds. -/
theorem evaluateWhere_age_bounds (row : Row) (q : Rat)
    (h : rowGet row "age" = some (.num q)) :
    evaluateWhere row "age > 25 AND age < 35" =
      .ok (decide ((25 : Rat) < q) && decide (q < 35)) := by
  have hOr : (jsSplitWsOpWs charEqCI "OR".data "age > 25 AND age < 35".data).map String.mk
      = ["age > 25 AND age < 35"] := by decide
  have hAnd : (jsSplitWsOpWs charEqCI "AND".data "age > 25 AND age < 35".data).map String.mk
      = ["age > 25", "age < 35"] := by decide
  simp only [evaluateWhere, hOr]
  refine exceptAny_singleton ?_
  simp only [hAnd]
  exact exceptAll_pair (evaluateCondition_age_gt25 row q h) (evaluateCondition_age_lt35 row q h)

/-- Filtering rows with numeric ages through the WHERE clause keeps
exactly the rows satisfying both bounds. -/
theorem applyWhere_age_bounds (rows : List Row) (hrows : rows.all hasNumericAge = true) :
    applyWhere rows "age > 25 AND age < 35" = .ok (rows.filter ageBetween25And35) := by
  induction rows with
  | nil => simp [applyWhere, exceptFilter]
  | cons r rs ih =>
    simp only [List.all_cons, Bool.and_eq_true] at hrows
    obtain ⟨hr, hrs⟩ := hrows
    obtain ⟨p, hp⟩ : ∃ p : Rat, rowGet r "age" = some (.num p) := by
      unfold hasNumericAge at hr
      cases hg : rowGet r "age" with
      | none => rw [hg] at hr; simp at hr
      | some v =>
        cases v with
        | num p => exact ⟨p, rfl⟩
        | str s => rw [hg] at hr; simp at hr
        | nan => rw [hg] at hr; simp at hr
        | bool b => rw [hg] at hr; simp at hr
        | null => rw [hg] at hr; simp at hr
    have hw := evaluateWhere_age_bounds r p hp
    have hb : ageBetween25And35 r = (decide ((25 : Rat) < p) && decide (p < 35)) := by
      unfold ageBetween25And35
      rw [hp]
    simp only [applyWhere] at ih ⊢
    rw [exceptFilter, hw]
    simp only [except_bind_ok_eq, Bool.if_false_left, if_false, Bool.not_false]
    rw [ih hrs]
    simp [List.filter_cons, hb]

/-- C8: condition decomposition tries the whitespace-delimited
two-character operators before the single-character ones, so
`age >= 26` is decomposed into the single comparison of `age` with `26`
under `>=` (never `age >` with a stray `= 26`) and evaluates as that
comparison; the clause `age > 25 AND age < 35` evaluates to the
conjunction of both bounds, and filtering rows with numeric ages
through it keeps exactly the rows satisfying both bounds. -/
theorem whereParse_multichar_before_single (row : Row) (q : Rat) (rows : List Row)
    (hage : rowGet row "age" = some (.num q))
    (hrows : rows.all hasNumericAge = true) :
    parseCondParts "age >= 26" = some ⟨">=", "age", "26"⟩ ∧
    evaluateCondition row "age >= 26" = .ok (decide ((26 : Rat) ≤ q)) ∧
    evaluateWhere row "age > 25 AND age < 35" =
      .ok (decide ((25 : Rat) < q) && decide (q < 35)) ∧
    applyWhere rows "age > 25 AND age < 35" = .ok (rows.filter ageBetween25And35) :=
  ⟨by decide, evaluateCondition_age_ge26 row q hage, evaluateWhere_age_bounds row q hage,
   applyWhere_age_bounds rows hrows⟩

/-- Witness for C8 on a concrete row and row list. -/
theorem whereParse_multichar_before_single_witness :
    rowGet [("age", Value.num 30)] "age" = some (.num 30) ∧
    ([[("age", Value.num 20)], [("age", Value.num 30)], [("age", Value.num 40)]].all
      hasNumericAge = true) ∧
    (parseCondParts "age >= 26" = some ⟨">=", "age", "26"⟩ ∧
     evaluateCondition [("age", Value.num 30)] "age >= 26" =
       .ok (decide ((26 : Rat) ≤ (30 : Rat))) ∧
     evaluateWhere [("age", Value.num 30)] "age > 25 AND age < 35" =
       .ok (decide ((25 : Rat) < (30 : Rat)) && decide ((30 : Rat) < 35)) ∧
     applyWhere [[("age", Value.num 20)], [("age", Value.num 30)], [("age", Value.num 40)]]
         "age > 25 AND age < 35" =
       .ok ([[("age", Value.num 20)], [("age", Value.num 30)],
             [("age", Value.num 40)]].filter ageBetween25And35)) :=
  ⟨by decide, by decide,
   whereParse_multichar_before_single [("age", Value.num 30)] 30
     [[("age", Value.num 20)], [("age", Value.num 30)], [("age", Value.num 40)]]
     (by decide) (by decide)⟩

/-! ## Claim C10: UPDATE raises no schema or constraint error -/

/-- Every error of `evaluateCondition` is the invalid-condition
message. -/
theorem evaluateCondition_error_shape {row : Row} {c e : String}
    (h : evaluateCondition row c = .error e) :
    e = "Invalid WHERE condition: " ++ c := by
  unfold evaluateCondition at h
  cases hp : parseCondParts c with
  | none =>
    simp only [hp] at h
    injection h with h2
    exact h2.symm
  | some parts =>
    simp only [hp] at h
    split at h
    · injection h with h2
      exact h2.symm
    · simp at h

/-- Every error of `evaluateWhere` is an invalid-condition message for
one of the split conditions. -/
theorem evaluateWhere_error_shape {row : Row} {wc e : String}
    (h : evaluateWhere row wc = .error e) :
    ∃ c, e = "Invalid WHERE condition: " ++ c := by
  unfold evaluateWhere at h
  obtain ⟨x, _, hfx⟩ := exceptAny_error_mem h
  obtain ⟨y, _, hfy⟩ := exceptAll_error_mem hfx
  exact ⟨y, evaluateCondition_error_shape hfy⟩

/-- Every error of the row loop of `executeUpdate` is an
invalid-condition message; in particular no schema and no constraint
error is ever raised. -/
theorem updateRows_error_shape {cols : List Column} {A : List (String × Value)}
    {wc : Option String} : ∀ {rows : List Row} {e : String},
    updateRows cols A wc rows = .error e →
    ∃ c, e = "Invalid WHERE condition: " ++ c := by
  intro rows
  induction rows with
  | nil => intro e h; simp [updateRows] at h
  | cons row rest ih =>
    intro e h
    rw [updateRows] at h
    cases hm : rowMatches row wc with
    | error e2 =>
      rw [hm] at h
      simp at h
      cases wc with
      | none => simp [rowMatches] at hm
      | some c =>
        subst h
        exact evaluateWhere_error_shape hm
    | ok b =>
      rw [hm] at h
      simp only [except_bind_ok_eq] at h
      cases hr : updateRows cols A wc rest with
      | error e2 =>
        rw [hr] at h
        simp at h
        subst h
        exact ih hr
      | ok pr =>
        rw [hr] at h
        simp at h

/-- With no WHERE clause every row is matched and updated, and the
affected count is the full row count. -/
theorem updateRows_none_ok (cols : List Column) (A : List (String × Value)) :
    ∀ rows : List Row, updateRows cols A none rows =
      .ok (rows.map (applySetAssignments cols A), rows.length) := by
  intro rows
  induction rows with
  | nil => simp [updateRows]
  | cons row rest ih => simp [updateRows, rowMatches, ih]

/-- Assignments that all name unknown columns change nothing. -/
theorem applySetAssignments_unknown {cols : List Column} {A : List (String × Value)}
    (hA : ∀ a ∈ A, cols.find? (fun c => c.name == a.1) = none) :
    ∀ row, applySetAssignments cols A row = row := by
  induction A with
  | nil => intro row; rfl
  | cons a rest ih =>
    intro row
    have ha := hA a (List.mem_cons_self a rest)
    simp only [applySetAssignments, ha]
    exact ih (fun b hb => hA b (List.mem_cons_of_mem a hb)) row

/-- When every assignment names an unknown column, a successful row
loop leaves the rows unchanged and still counts every matched row. -/
theorem updateRows_unknown_columns {cols : List Column} {A : List (String × Value)}
    (hA : ∀ a ∈ A, cols.find? (fun c => c.name == a.1) = none) {wc : Option String} :
    ∀ {rows rows2 : List Row} {n : Nat},
    updateRows cols A wc rows = .ok (rows2, n) →
    rows2 = rows ∧ n = rows.countP (fun row => decide (rowMatches row wc = .ok true)) := by
  intro rows
  induction rows with
  | nil =>
    intro rows2 n h
    simp [updateRows] at h
    obtain ⟨h1, h2⟩ := h
    subst h1
    exact ⟨rfl, by simpa using h2.symm⟩
  | cons row rest ih =>
    intro rows2 n h
    rw [updateRows] at h
    cases hm : rowMatches row wc with
    | error e =>
      rw [hm] at h
      simp at h
    | ok b =>
      rw [hm] at h
      simp only [except_bind_ok_eq] at h
      cases hr : updateRows cols A wc rest with
      | error e =>
        rw [hr] at h
        simp at h
      | ok pr =>
        obtain ⟨rs2, n2⟩ := pr
        rw [hr] at h
        simp only [except_bind_ok_eq, except_pure_eq] at h
        obtain ⟨hrest, hn2⟩ := ih hr
        have hrow2 : (if b then applySetAssignments cols A row else row) = row := by
          cases b
          · simp
          · simp [applySetAssignments_unknown hA row]
        injection h with h2
        rw [Prod.mk.injEq] at h2
        obtain ⟨ha2, hb2⟩ := h2
        subst hrest
        constructor
        · rw [← ha2, hrow2]
        · rw [← hb2, hn2, List.countP_cons]
          cases b <;> simp [hm]

/-- C10: on an existing table, a decomposed UPDATE statement never
raises a schema or constraint error: any error it can return is the
invalid-WHERE-condition message; with no WHERE clause it always
succeeds, applying the assignments to every row (so it may set a
primary-key column to a value duplicating another row, with no
uniqueness or not-null check) and counting every row as affected; and
when every SET assignment names a column absent from the schema the
assignments are silently skipped, the rows are unchanged, and every row
matching the WHERE predicate is still counted as affected. -/
theorem executeUpdate_no_schema_constraint_error (t : Table)
    (assignments : List (String × Value)) (wc : Option String) :
    (∀ e, executeUpdate t assignments wc = .error e →
      ∃ c, e = "Invalid WHERE condition: " ++ c) ∧
    (executeUpdate t assignments none =
      .ok ({ t with data := t.data.map (applySetAssignments t.columns assignments) },
           t.data.length)) ∧
    ((∀ a ∈ assignments, t.columns.find? (fun c => c.name == a.1) = none) →
      ∀ t2 n, executeUpdate t assignments wc = .ok (t2, n) →
        t2.data = t.data ∧
        n = t.data.countP (fun row => decide (rowMatches row wc = .ok true))) := by
  refine ⟨?_, ?_, ?_⟩
  · intro e h
    unfold executeUpdate at h
    cases hu : updateRows t.columns assignments wc t.data with
    | error e2 =>
      rw [hu] at h
      simp at h
      subst h
      exact updateRows_error_shape hu
    | ok pr =>
      obtain ⟨rs2, n2⟩ := pr
      rw [hu] at h
      simp at h
  · unfold executeUpdate
    rw [updateRows_none_ok]
    rfl
  · intro hA t2 n h
    unfold executeUpdate at h
    cases hu : updateRows t.columns assignments wc t.data with
    | error e2 =>
      rw [hu] at h
      simp at h
    | ok pr =>
      obtain ⟨rs2, n2⟩ := pr
      rw [hu] at h
      simp only [except_bind_ok_eq, except_pure_eq] at h
      injection h with h2
      rw [Prod.mk.injEq] at h2
      obtain ⟨ht2, hn⟩ := h2
      obtain ⟨hrows, hcount⟩ := updateRows_unknown_columns hA hu
      subst hrows
      refine ⟨?_, ?_⟩
      · rw [← ht2]
      · rw [← hn, hcount]

/-- Witness for C10 on a concrete table, an assignment naming an
unknown column, and no WHERE clause. -/
theorem executeUpdate_no_schema_constraint_error_witness :
    (∀ e, executeUpdate usersTable [("zzz", Value.num 9)] none = .error e →
      ∃ c, e = "Invalid WHERE condition: " ++ c) ∧
    (executeUpdate usersTable [("zzz", Value.num 9)] none =
      .ok ({ usersTable with
              data := usersTable.data.map
                (applySetAssignments usersTable.columns [("zzz", Value.num 9)]) },
           usersTable.data.length)) ∧
    ((∀ a ∈ [("zzz", Value.num 9)],
        usersTable.columns.find? (fun c => c.name == a.1) = none) →
      ∀ t2 n, executeUpdate usersTable [("zzz", Value.num 9)] none = .ok (t2, n) →
        t2.data = usersTable.data ∧
        n = usersTable.data.countP (fun row => decide (rowMatches row none = .ok true))) :=
  executeUpdate_no_schema_constraint_error usersTable [("zzz", Value.num 9)] none

/-! ## Claim C2: primary-key uniqueness invariant -/

/-- Appending a row keeps pairwise uniqueness exactly when the invariant
held before and the appended row duplicates no existing row. -/
theorem pkUniqueRows_append_iff (cols : List Column) (l : List Row) (x : Row) :
    pkUniqueRows cols (l ++ [x]) = true ↔
      (pkUniqueRows cols l = true ∧ ∀ e ∈ l, pkDup cols e x = false) := by
  induction l with
  | nil => simp [pkUniqueRows]
  | cons r rest ih =>
    simp only [List.cons_append, pkUniqueRows, List.all_append, List.all_cons,
      Bool.and_eq_true, List.all_eq_true, Bool.not_eq_true', ih, List.append_eq,
      List.forall_mem_append, List.forall_mem_singleton, List.forall_mem_cons]
    tauto

/-- C2: on a table with at least one primary-key column satisfying the
uniqueness invariant, a successful INSERT preserves the invariant (so
no two rows agree, under strict equality, on all primary-key columns
after any sequence of INSERTs), appends exactly one row and reports one
affected row; and an INSERT whose coerced row duplicates an existing
row on all primary-key columns fails with the constraint violation
naming the primary-key column(s), before any row is appended. -/
theorem executeInsert_pk_uniqueness (t : Table) (cols : List String) (vals : List Value)
    (hpk : t.columns.filter (·.primaryKey) ≠ [])
    (hinv : pkUnique t = true) :
    (∀ t2 n, executeInsert t cols vals = .ok (t2, n) →
      pkUnique t2 = true ∧ n = 1 ∧ t2.data.length = t.data.length + 1) ∧
    (∀ row, buildInsertRow t (cols.zip vals) [] = .ok row →
      cols.length = vals.length →
      (∃ e ∈ t.data, pkDup t.columns e row = true) →
      executeInsert t cols vals = .error (pkViolationMsg t.columns)) := by
  have hempty : (t.columns.filter (·.primaryKey)).isEmpty = false := by
    cases hf2 : t.columns.filter (·.primaryKey) with
    | nil => exact absurd hf2 hpk
    | cons a l => rfl
  refine ⟨?_, ?_⟩
  · intro t2 n h
    unfold executeInsert at h
    split at h
    · simp at h
    · cases hbr : buildInsertRow t (cols.zip vals) [] with
      | error e =>
        rw [hbr] at h
        simp at h
      | ok row =>
        rw [hbr] at h
        simp only [except_bind_ok_eq] at h
        unfold validatePrimaryKeyConstraint at h
        simp only [hempty, Bool.false_eq_true, if_false] at h
        cases hf : t.data.find? (fun e => pkDup t.columns e row) with
        | some y =>
          rw [hf] at h
          simp at h
        | none =>
          rw [hf] at h
          simp only [except_bind_ok_eq] at h
          injection h with h2
          rw [Prod.mk.injEq] at h2
          obtain ⟨ht2, hn⟩ := h2
          have hnodup : ∀ e ∈ t.data, pkDup t.columns e row = false := by
            intro e he
            have := List.find?_eq_none.mp hf e he
            simpa using this
          refine ⟨?_, hn.symm, ?_⟩
          · rw [← ht2]
            unfold pkUnique at hinv ⊢
            exact (pkUniqueRows_append_iff t.columns t.data row).mpr ⟨hinv, hnodup⟩
          · rw [← ht2]
            simp
  · intro row hbr hlen hdup
    unfold executeInsert
    rw [if_neg (fun hne => hne hlen), hbr]
    simp only [except_bind_ok_eq]
    unfold validatePrimaryKeyConstraint
    simp only [hempty, Bool.false_eq_true, if_false]
    obtain ⟨e0, he0, hde⟩ := hdup
    cases hf : t.data.find? (fun e => pkDup t.columns e row) with
    | none =>
      have := List.find?_eq_none.mp hf e0 he0
      simp [hde] at this
    | some y => rfl

/-- Witness for C2: inserting a duplicate primary-key value into the
sample table is rejected with the violation naming the id column. -/
theorem executeInsert_pk_uniqueness_witness :
    (usersTable.columns.filter (·.primaryKey) ≠ [] ∧ pkUnique usersTable = true) ∧
    ((∀ t2 n, executeInsert usersTable ["id", "name"] [Value.num 1, Value.str "Bob"] =
        .ok (t2, n) →
      pkUnique t2 = true ∧ n = 1 ∧ t2.data.length = usersTable.data.length + 1) ∧
    (∀ row,
      buildInsertRow usersTable (["id", "name"].zip [Value.num 1, Value.str "Bob"]) [] =
        .ok row →
      ["id", "name"].length = [Value.num 1, Value.str "Bob"].length →
      (∃ e ∈ usersTable.data, pkDup usersTable.columns e row = true) →
      executeInsert usersTable ["id", "name"] [Value.num 1, Value.str "Bob"] =
        .error (pkViolationMsg usersTable.columns))) :=
  ⟨⟨by decide, by decide⟩,
   executeInsert_pk_uniqueness usersTable ["id", "name"] [Value.num 1, Value.str "Bob"]
     (by decide) (by decide)⟩

end Xdb
